import Mathlib

/-!
Verification of the site-mirroring pipeline (scraper.py of the
wordpress-converter repository) against its natural-language specification.

The pure logic of the scraper is embedded shallowly: URL strings are Lean
strings, every Python string operation used by the code is re-implemented
here by structural recursion on character lists (so all definitions reduce
inside the kernel), filesystem state is an explicit record, and network
traffic is an oracle function passed as a parameter.

Each section names the Python function of scraper.py that it embeds.
-/

namespace WpScraper

/-! ## Character-list string primitives

Python string operations used by scraper.py, modelled on lists of
characters.  All recursions are structural. -/

/-- Concatenation-free view of a string as its character list. -/
def chars (s : String) : List Char := s.data

/-- Rebuild a string from a character list. -/
def ofChars (l : List Char) : String := ⟨l⟩

/-- Does the first list occur as a leading segment of the second
(Python startswith, on characters)? -/
def leadsL : List Char → List Char → Bool
  | [], _ => true
  | _ :: _, [] => false
  | p :: ps, c :: cs => p == c && leadsL ps cs

/-- Substring containment (Python `in` on strings). -/
def containsL (pat : List Char) : List Char → Bool
  | [] => pat.isEmpty
  | c :: cs => leadsL pat (c :: cs) || containsL pat cs

/-- Python s.startswith(pat). -/
def startsWithStr (s pat : String) : Bool := leadsL (chars pat) (chars s)

/-- Python pat in s. -/
def containsStr (s pat : String) : Bool := containsL (chars pat) (chars s)

/-- Python s.endswith(pat), via reversed character lists. -/
def endsWithStr (s pat : String) : Bool :=
  leadsL (chars pat).reverse (chars s).reverse

/-- Python s.lower(), ASCII case folding as used by the scraper. -/
def lowerStr (s : String) : String := ofChars ((chars s).map Char.toLower)

/-- Python s.rstrip(c) for a single strip character. -/
def rstripChar (c : Char) (s : String) : String :=
  ofChars (((chars s).reverse.dropWhile (· == c)).reverse)

/-- Python s.strip(c) for a single strip character (both ends). -/
def stripChar (c : Char) (s : String) : String :=
  ofChars ((((chars s).dropWhile (· == c)).reverse.dropWhile (· == c)).reverse)

/-- Python s.strip('/'): used pervasively on URL paths. -/
def stripSlash (s : String) : String := stripChar '/' s

/-- Python s.lstrip(chars-set) restricted to the set used at
scraper.py line 511: lstrip('./') removes every leading '.' or '/'. -/
def lstripDotSlash (s : String) : String :=
  ofChars ((chars s).dropWhile (fun c => c == '.' || c == '/'))

/-- Python s.split(sep) for a single character separator; like Python,
adjacent separators produce empty fields and splitting the empty string
yields one empty field. -/
def splitCharAux (sep : Char) (cur : List Char) : List Char → List (List Char)
  | [] => [cur.reverse]
  | c :: cs =>
    if c == sep then cur.reverse :: splitCharAux sep [] cs
    else splitCharAux sep (c :: cur) cs

/-- Python s.split('/') as a list of strings. -/
def splitSlash (s : String) : List String :=
  (splitCharAux '/' [] (chars s)).map ofChars

/-- Repeat a string n times (Python s * n). -/
def repStr (s : String) : Nat → String
  | 0 => ""
  | n + 1 => s ++ repStr s n

/-- Split a list at the first occurrence of a substring: returns the part
before and the part after the pattern (pattern removed), if present. -/
def splitSub (pat : List Char) : List Char → Option (List Char × List Char)
  | [] => if pat.isEmpty then some ([], []) else none
  | c :: cs =>
    if leadsL pat (c :: cs) then some ([], (c :: cs).drop pat.length)
    else
      match splitSub pat cs with
      | some (a, b) => some (c :: a, b)
      | none => none

/-- Split a list at the first occurrence of a character: (before, after),
the separator removed; if absent, the whole list is "before". -/
def breakChar (sep : Char) : List Char → List Char × List Char
  | [] => ([], [])
  | c :: cs =>
    if c == sep then ([], cs)
    else
      let (a, b) := breakChar sep cs
      (c :: a, b)

/-- Take the longest leading run of characters not in the stop set. -/
def takeNotIn (stop : List Char) (l : List Char) : List Char :=
  l.takeWhile (fun c => !stop.contains c)

/-- Drop the longest leading run of characters not in the stop set. -/
def dropNotIn (stop : List Char) (l : List Char) : List Char :=
  l.dropWhile (fun c => !stop.contains c)

/-! ## urlparse (urllib.parse.urlparse, as used by scraper.py)

Only the fields the scraper reads are modelled: scheme, netloc, path and
query.  The fragment is split off and discarded, like urlparse does before
the scraper reads .path. -/

structure UrlParts where
  scheme : String
  netloc : String
  path : String
  query : String
  deriving Repr, DecidableEq

/-- Parse a URL into scheme, netloc, path and query.  A URL of the form
scheme://netloc/path?query#fragment is split accordingly; a URL with no
"://" has empty scheme and netloc (as for relative references). -/
def urlparse (u : String) : UrlParts :=
  match splitSub (chars "://") (chars u) with
  | some (sch, rest) =>
    let netloc := takeNotIn (chars "/?#") rest
    let after := dropNotIn (chars "/?#") rest
    let noFrag := (breakChar '#' after).1
    let (p, q) := breakChar '?' noFrag
    ⟨ofChars sch, ofChars netloc, ofChars p, ofChars q⟩
  | none =>
    let noFrag := (breakChar '#' (chars u)).1
    let (p, q) := breakChar '?' noFrag
    ⟨"", "", ofChars p, ofChars q⟩

/-! ## convert_to_relative_path (scraper.py lines 352-399) -/

/-- The asset extension list of convert_to_relative_path (lines 385-392),
identical to the list in is_valid_asset. -/
def relAssetExts : List String :=
  [".jpg", ".jpeg", ".png", ".gif", ".svg", ".ico", ".webp",
   ".css", ".js",
   ".pdf", ".zip", ".doc", ".docx",
   ".woff", ".woff2", ".ttf", ".eot",
   ".mp4", ".avi", ".mov", ".mp3", ".wav",
   ".xml", ".json", ".txt"]

/-- Directory depth of the referencing page (lines 360-372).  The source
distinguishes a path ending in '/' from one that does not, but both
branches compute current_path.strip('/') and the same segment count, so
the two branches are written once here. -/
def pageDepth (currentPath : String) : Nat :=
  if currentPath == "" || currentPath == "/" then 0
  else
    let d := stripSlash currentPath
    if d == "" then 0 else (splitSlash d).length

/-- convert_to_relative_path(target_url, current_page_url): the relative
reference written into mirrored HTML. -/
def convert_to_relative_path (targetUrl currentPageUrl : String) : String :=
  let targetPath := (urlparse targetUrl).path
  let currentPath := (urlparse currentPageUrl).path
  let depth := pageDepth currentPath
  let relPre := if depth > 0 then repStr "../" depth else "./"
  if targetPath == "" || targetPath == "/" then
    relPre ++ "index.html"
  else if endsWithStr targetPath "/" then
    relPre ++ stripSlash targetPath ++ "/index.html"
  else if relAssetExts.any (fun e => endsWithStr (lowerStr targetPath) e) then
    relPre ++ stripSlash targetPath
  else if endsWithStr targetPath ".html" || endsWithStr targetPath ".htm" then
    relPre ++ stripSlash targetPath
  else
    relPre ++ stripSlash targetPath ++ "/index.html"

/-! ## save_html_file (scraper.py lines 401-433)

Only the pure path computation is embedded; os.path.join(output_dir, p)
is modelled by returning p, the path relative to the output root, and the
os.makedirs calls create directories along that path (modelled where the
filesystem matters, in the asset-download section). -/

/-- The page-like extension list of save_html_file (line 413). -/
def pageLikeExts : List String := [".html", ".htm", ".php", ".asp", ".aspx"]

/-- The output file path (relative to the output root) that save_html_file
writes a page to, computed from the page URL.  Note line 419-420 of the
source: after the extension branch picks path.strip('/') as the file
path, ".html" is appended whenever the path does not already end in
".html" (so ".htm", ".php", ".asp", ".aspx" paths are extended). -/
def save_html_path (url : String) : String :=
  let path := (urlparse url).path
  if path == "" || path == "/" then "index.html"
  else if endsWithStr path "/" then stripSlash path ++ "/index.html"
  else if pageLikeExts.any (fun e => endsWithStr (lowerStr path) e) then
    let fp := stripSlash path
    if endsWithStr fp ".html" then fp else fp ++ ".html"
  else stripSlash path ++ "/index.html"

/-! ## is_valid_asset (scraper.py lines 528-568) -/

/-- The mutable name sets of the scraper that is_valid_asset consults:
scraped_pages (URLs already fetched as pages) and discovered_urls (URLs
queued as pages). -/
structure ScrapeSets where
  scraped_pages : List String
  discovered_urls : List String
  deriving Repr, DecidableEq

/-- The excluded dynamic-endpoint substrings (lines 539-546), matched
against the whole URL with the Python `in` operator. -/
def invalid_paths : List String :=
  ["/wp-json/", "/wp-admin/", "?", "/feed/", "/xmlrpc.php", "/wp-login.php"]

/-- The recognized asset extension list (lines 549-556). -/
def asset_extensions : List String :=
  [".jpg", ".jpeg", ".png", ".gif", ".svg", ".ico", ".webp",
   ".css", ".js",
   ".pdf", ".zip", ".doc", ".docx",
   ".woff", ".woff2", ".ttf", ".eot",
   ".mp4", ".avi", ".mov", ".mp3", ".wav",
   ".xml", ".json", ".txt"]

/-- is_valid_asset(url): a URL is downloadable as an asset only when it is
not a known page, its lowercased path carries a recognized asset
extension, and no excluded substring occurs in the URL. -/
def is_valid_asset (st : ScrapeSets) (url : String) : Bool :=
  if st.scraped_pages.contains url then false
  else if st.discovered_urls.contains url then false
  else
    let path := lowerStr (urlparse url).path
    let hasExt := asset_extensions.any (fun e => endsWithStr path e)
    if hasExt then !(invalid_paths.any (fun p => containsStr url p))
    else false

/-! ## is_same_domain and normalize_url (scraper.py lines 570-575, 127-133) -/

/-- Python self.domain.replace('www.', ''): every occurrence of the
four-character substring "www." is removed, wherever it occurs, scanning
left to right without overlap. -/
def removeWWW : List Char → List Char
  | 'w' :: 'w' :: 'w' :: '.' :: rest => removeWWW rest
  | c :: rest => c :: removeWWW rest
  | [] => []

/-- is_same_domain(url): the netloc equals the scraper domain, or
"www." prepended to it, or the domain with every "www." removed. -/
def is_same_domain (domain url : String) : Bool :=
  let netloc := (urlparse url).netloc
  netloc == domain || netloc == "www." ++ domain ||
    netloc == ofChars (removeWWW (chars domain))

/-- normalize_url(url): the trailing slashes are stripped; the source then
tests for a .html/.htm ending but returns the stripped URL in both
branches, so the conditional is kept only for fidelity. -/
def normalize_url (url : String) : String :=
  let u := rstripChar '/' url
  if endsWithStr u ".html" || endsWithStr u ".htm" then u else u

/-! ## os.path helpers used by download_asset -/

/-- Split a list at the last occurrence of a character: some (before,
after) with the separator removed, or none if the character is absent. -/
def breakLastChar (sep : Char) (l : List Char) : Option (List Char × List Char) :=
  match splitSub [sep] l.reverse with
  | some (a, b) => some (b.reverse, a.reverse)
  | none => none

/-- os.path.basename for the slash-separated relative paths the scraper
builds: the part after the last '/'. -/
def basenameStr (p : String) : String :=
  match breakLastChar '/' (chars p) with
  | some (_, b) => ofChars b
  | none => p

/-- os.path.dirname for those paths: the part before the last '/', or ""
when there is no '/'. -/
def dirnameStr (p : String) : String :=
  match breakLastChar '/' (chars p) with
  | some (a, _) => ofChars a
  | none => ""

/-- os.path.join(d, n) for a non-empty member name n: d ++ "/" ++ n, or n
when d is empty. -/
def pathJoin (d n : String) : String := if d == "" then n else d ++ "/" ++ n

/-- os.path.splitext on a basename: splits at the last dot, except that a
dot with only dots before it in the name (a leading-dot file) does not
start an extension. -/
def splitextStr (b : String) : String × String :=
  match breakLastChar '.' (chars b) with
  | none => (b, "")
  | some (before, after) =>
    if before.any (fun c => c != '.') then (ofChars before, ofChars ('.' :: after))
    else (b, "")

/-! ## download_asset (scraper.py lines 444-489): path and conflict logic -/

/-- The modelled filesystem: the set of paths (relative to the output
root) that currently exist as directories.  Page mirroring materializes
page directories here before assets are downloaded. -/
structure Fs where
  dirs : List String
  deriving Repr, DecidableEq

/-- os.path.isdir against the modelled filesystem. -/
def Fs.isDir (fs : Fs) (p : String) : Bool := fs.dirs.contains p

/-- Where download_asset ends up writing, or why it writes nothing. -/
inductive DlOutcome where
  /-- parsed.path.strip('/') was empty: nothing to write. -/
  | skippedEmptyPath
  /-- the (possibly renamed) target is still a directory: logged, skipped. -/
  | skippedIsDir (path : String)
  /-- the asset body is written at this path. -/
  | written (path : String)
  deriving Repr, DecidableEq

/-- The conflict-renaming name: basename with "_asset" inserted before the
extension when the basename has a dot, appended otherwise (lines 461-466). -/
def assetConflictName (baseName : String) : String :=
  if containsStr baseName "." then
    let (n, e) := splitextStr baseName
    n ++ "_asset" ++ e
  else baseName ++ "_asset"

/-- The pure path-resolution core of download_asset: computes the write
target for an asset URL against the current filesystem, resolving a
directory collision by renaming, and reports whether the rename-conflict
log line was emitted.  The os.makedirs(dir_path) call between the two
isdir checks creates only directories strictly above the file path, so
the second isdir test is faithfully taken against the same filesystem. -/
def download_asset_target (fs : Fs) (url : String) :
    DlOutcome × Bool :=
  let assetPath := stripSlash (urlparse url).path
  if assetPath == "" then (.skippedEmptyPath, false)
  else
    let dirPath := dirnameStr assetPath
    let (filePath, renamed) :=
      if fs.isDir assetPath then
        (pathJoin dirPath (assetConflictName (basenameStr assetPath)), true)
      else (assetPath, false)
    if fs.isDir filePath then (.skippedIsDir filePath, renamed)
    else (.written filePath, renamed)

/-! ## urljoin (urllib.parse.urljoin, as used by scraper.py)

Modelled for the reference shapes the scraper feeds it: absolute http(s)
and data URLs are returned unchanged, scheme-relative and root-relative
references are resolved against the base scheme/netloc, and plain
relative references are merged onto the base directory with ../ and ./
segments normalized (RFC 3986 dot-segment removal; trailing lone dot
segments, which the scraper never produces, are not special-cased). -/

/-- The directory of a base path for reference merging: everything up to
and including the last '/', or "/" when the path has none. -/
def baseDir (p : String) : String :=
  match breakLastChar '/' (chars p) with
  | some (a, _) => ofChars a ++ "/"
  | none => "/"

/-- Dot-segment removal over a segment stack. -/
def normSegsAux (acc : List String) : List String → List String
  | [] => acc.reverse
  | s :: rest =>
    if s == ".." then normSegsAux (acc.drop 1) rest
    else if s == "." then normSegsAux acc rest
    else normSegsAux (s :: acc) rest

/-- Normalize an absolute path (leading '/'), removing . and .. segments. -/
def normPathAbs (p : String) : String :=
  "/" ++ String.intercalate "/" (normSegsAux [] ((splitSlash p).drop 1))

/-- urljoin(base, rel). -/
def urljoin (base rel : String) : String :=
  if startsWithStr rel "http://" || startsWithStr rel "https://" ||
      startsWithStr rel "data:" then rel
  else if startsWithStr rel "//" then (urlparse base).scheme ++ ":" ++ rel
  else if startsWithStr rel "/" then
    (urlparse base).scheme ++ "://" ++ (urlparse base).netloc ++ normPathAbs rel
  else if rel == "" then base
  else
    (urlparse base).scheme ++ "://" ++ (urlparse base).netloc ++
      normPathAbs (baseDir (urlparse base).path ++ rel)

/-! ## process_css_file (scraper.py lines 491-526)

The regex url\(["\x27]?([^"\x27)\s]+)["\x27]?\) is embedded as a
deterministic left-to-right scanner.  Backtracking never helps this
pattern: the captured group is a maximal run of characters that excludes
quotes and ')', so shrinking it can never let the optional quote or the
closing paren match, and an opening quote taken by the optional prefix
can never be re-read by the group.  The scanner is therefore exactly the
re.sub semantics on every input. -/

/-- The \s class of the regex. -/
def isWsChar (c : Char) : Bool :=
  c == ' ' || c == '\t' || c == '\n' || c == '\r' ||
    c == Char.ofNat 11 || c == Char.ofNat 12

/-- Characters admitted in the captured group: anything except a quote,
a closing paren, and whitespace. -/
def isCssUrlChar (c : Char) : Bool :=
  !(c == '"' || c == '\'' || c == ')' || isWsChar c)

/-- Render an optional quote character. -/
def optStr : Option Char → String
  | some c => ofChars [c]
  | none => ""

/-- Try to complete a url(...) match directly after the opening paren:
optional quote, non-empty group, optional quote, ')'.  Returns the two
optional quotes, the group, and the input after the ')'. -/
def cssMatchAfterParen (l : List Char) :
    Option (Option Char × List Char × Option Char × List Char) :=
  let (q1, l1) :=
    match l with
    | c :: cs => if c == '"' || c == '\'' then (some c, cs) else (none, l)
    | [] => (none, l)
  let grp := l1.takeWhile isCssUrlChar
  let l2 := l1.dropWhile isCssUrlChar
  if grp.isEmpty then none
  else
    match l2 with
    | ')' :: rest => some (q1, grp, none, rest)
    | c :: ')' :: rest =>
      if c == '"' || c == '\'' then some (q1, grp, some c, rest) else none
    | _ => none

/-- The replace_url closure of process_css_file (lines 502-513): an
absolute or data or scheme-relative reference is left as matched; a
relative one is resolved against the CSS URL, and when same-domain and a
valid asset it is registered and rewritten to
convert_to_relative_path(abs, css_url).lstrip('./') — note that lstrip
removes every leading '.' and '/' character. -/
def css_replace_url (domain : String) (st : ScrapeSets) (cssUrl : String)
    (matchedText innerUrl : String) : String × List String :=
  if startsWithStr innerUrl "http://" || startsWithStr innerUrl "https://" ||
      startsWithStr innerUrl "data:" || startsWithStr innerUrl "//" then
    (matchedText, [])
  else
    let absUrl := urljoin cssUrl innerUrl
    if is_same_domain domain absUrl && is_valid_asset st absUrl then
      ("url(" ++ lstripDotSlash (convert_to_relative_path absUrl cssUrl) ++ ")",
        [absUrl])
    else (matchedText, [])

/-- Left-to-right re.sub scan of the CSS text.  The Nat fuel only bounds
the number of scan steps; every step consumes at least one input
character, so fuel equal to the input length never runs out. -/
def cssScanAux (domain : String) (st : ScrapeSets) (cssUrl : String) :
    Nat → List Char → List Char × List String
  | 0, l => (l, [])
  | _ + 1, [] => ([], [])
  | fuel + 1, c :: cs =>
    if leadsL (chars "url(") (c :: cs) then
      match cssMatchAfterParen ((c :: cs).drop 4) with
      | some (q1, grp, q2, rest) =>
        let rep := css_replace_url domain st cssUrl
          ("url(" ++ optStr q1 ++ ofChars grp ++ optStr q2 ++ ")") (ofChars grp)
        (chars rep.1 ++ (cssScanAux domain st cssUrl fuel rest).1,
          rep.2 ++ (cssScanAux domain st cssUrl fuel rest).2)
      | none =>
        (c :: (cssScanAux domain st cssUrl fuel cs).1,
          (cssScanAux domain st cssUrl fuel cs).2)
    else
      (c :: (cssScanAux domain st cssUrl fuel cs).1,
        (cssScanAux domain st cssUrl fuel cs).2)

/-- process_css_file on the downloaded text: the rewritten content and the
new assets collected by replace_url (added to self.assets afterwards). -/
def process_css_text (domain : String) (st : ScrapeSets)
    (cssUrl content : String) : String × List String :=
  let (out, assets) :=
    cssScanAux domain st cssUrl (chars content).length (chars content)
  (ofChars out, assets)

/-! ## download_assets (scraper.py lines 435-442) and the full
download_asset step (lines 444-489), with filesystem and network models -/

/-- Python set.add / set.update on a list modelling a set: appends the
elements not already present, keeping first-insertion order. -/
def addNew (l : List String) (xs : List String) : List String :=
  xs.foldl (fun acc x => if acc.contains x then acc else acc ++ [x]) l

/-- The directory prefixes os.makedirs(d, exist_ok=True) materializes. -/
def dirPrefixes : List String → List String
  | [] => []
  | s :: rest => s :: (dirPrefixes rest).map (fun t => s ++ "/" ++ t)

/-- os.makedirs(d, exist_ok=True) on the modelled filesystem. -/
def Fs.mkdirs (fs : Fs) (d : String) : Fs :=
  if d == "" then fs else ⟨addNew fs.dirs (dirPrefixes (splitSlash d))⟩

/-- The scraper state that the asset-download phase reads and writes. -/
structure DrainState where
  domain : String
  scraped_pages : List String
  discovered_urls : List String
  assets : List String
  fs : Fs
  /-- The asset-download report: URLs whose body was written to disk. -/
  report : List String
  /-- Final text of every CSS file written, keyed by its output path. -/
  cssOut : List (String × String)
  deriving Repr, DecidableEq

/-- One download_asset call: fetch (None models a failed request, which
the except-clause logs and absorbs), resolve the write path and the
directory conflict, write, and post-process CSS files, whose newly found
references extend the asset set. -/
def download_asset_step (net : String → Option String) (st : DrainState)
    (url : String) : DrainState :=
  match net url with
  | none => st
  | some content =>
    match (download_asset_target st.fs url).1 with
    | .skippedEmptyPath => st
    | .skippedIsDir _ =>
      { st with fs := st.fs.mkdirs (dirnameStr (stripSlash (urlparse url).path)) }
    | .written fp =>
      let st :=
        { st with
          fs := st.fs.mkdirs (dirnameStr (stripSlash (urlparse url).path)),
          report := st.report ++ [url] }
      if endsWithStr (lowerStr fp) ".css" then
        let (newContent, newAssets) :=
          process_css_text st.domain ⟨st.scraped_pages, st.discovered_urls⟩
            url content
        { st with
          assets := addNew st.assets newAssets,
          cssOut := st.cssOut ++ [(fp, newContent)] }
      else st

/-- download_assets: the asset set is snapshotted ONCE into a list
(line 437, "Convert to list to avoid set changed size during iteration")
and only that snapshot is iterated; assets registered during the loop
stay in the set but are not downloaded. -/
def download_assets_drain (net : String → Option String)
    (st : DrainState) : DrainState :=
  let snapshot := st.assets
  snapshot.foldl (download_asset_step net) st

/-! ## parse_sitemap (scraper.py lines 100-125)

A parsed sitemap document is its list of sitemap-index child locations
and its list of url entry locations.  The network oracle maps a location
to a parsed document (None models a failed or non-200 fetch, absorbed by
the except clause).  The source recursion carries no visited set and no
depth bound; the Nat argument here is a recursion-depth budget of the
model only: reaching 0 marks the run as not completed, so a run that
completes under no budget models non-termination of the source. -/

structure SmDoc where
  childSitemaps : List String
  urlEntries : List String
  deriving Repr, DecidableEq

structure SmRes where
  /-- Child sitemap locations fetched, in fetch order. -/
  fetched : List String
  /-- URLs added to discovered_urls (same-domain entries, normalized). -/
  adds : List String
  /-- False when the depth budget was exhausted somewhere. -/
  completed : Bool
  deriving Repr, DecidableEq

/-- parse_sitemap: recurse into every successfully fetched
<sitemap><loc> child, then add every same-domain <url><loc> entry,
normalized, to the discovered set. -/
def parse_sitemap (net : String → Option SmDoc) (domain : String) :
    Nat → SmDoc → SmRes
  | 0, _ => ⟨[], [], false⟩
  | fuel + 1, doc =>
    let childRes := doc.childSitemaps.foldl
      (fun (acc : SmRes) (loc : String) =>
        match net loc with
        | none => acc
        | some d =>
          let r := parse_sitemap net domain fuel d
          ⟨acc.fetched ++ loc :: r.fetched, acc.adds ++ r.adds,
            acc.completed && r.completed⟩)
      (⟨[], [], true⟩ : SmRes)
    let urlAdds := doc.urlEntries.filterMap
      (fun u => if is_same_domain domain u then some (normalize_url u) else none)
    ⟨childRes.fetched, childRes.adds ++ urlAdds, childRes.completed⟩

/-- A one-sitemap cycle: the sitemap index at /s.xml lists itself. -/
def cycDoc : SmDoc := ⟨["https://x/s.xml"], []⟩

/-- The network serving the cyclic sitemap. -/
def cycNet (u : String) : Option SmDoc :=
  if u == "https://x/s.xml" then some cycDoc else none

/-! ## The DOM model (BeautifulSoup trees, as mutated by scraper.py)

An element node carries its tag, its attribute list (the class attribute
kept as its literal string value), its own text, and its children. -/

/-- Element attributes as an association list. -/
abbrev Attrs := List (String × String)

/-- element.get(key, ""): the attribute value or the empty default. -/
def attrGet (a : Attrs) (k : String) : String := (a.lookup k).getD ""

/-- A DOM element node. -/
inductive HNode where
  | elem (tag : String) (attrs : Attrs) (text : String) (children : List HNode)

/-- The tag of a node. -/
def HNode.tag : HNode → String
  | .elem t _ _ _ => t

/-- The attribute list of a node. -/
def HNode.attrs : HNode → Attrs
  | .elem _ a _ _ => a

mutual
/-- element.get_text(): all text of the subtree in document order. -/
def getTextN : HNode → List Char
  | .elem _ _ s c => chars s ++ getTextL c
def getTextL : List HNode → List Char
  | [] => []
  | n :: ns => getTextN n ++ getTextL ns
end

mutual
/-- Does the subtree contain an element with this tag? -/
def hasTagN (t : String) : HNode → Bool
  | .elem t2 _ _ c => t2 == t || hasTagL t c
def hasTagL (t : String) : List HNode → Bool
  | [] => false
  | n :: ns => hasTagN t n || hasTagL t ns
end

mutual
/-- Remove (decompose) every node of the tree satisfying the predicate,
together with its whole subtree; none results when the root itself is
removed.  Per-selector this is exactly soup.select + decompose: removing
a node whose ancestor was already removed has no further effect. -/
def pruneN (p : HNode → Bool) : HNode → Option HNode
  | .elem t a s c =>
    if p (.elem t a s c) then none else some (.elem t a s (pruneL p c))
def pruneL (p : HNode → Bool) : List HNode → List HNode
  | [] => []
  | n :: ns =>
    match pruneN p n with
    | none => pruneL p ns
    | some m => m :: pruneL p ns
end

/-! ## remove_cookie_banners (scraper.py lines 248-350) -/

/-- The attribute keyword list of is_likely_cookie_banner (lines 311-314). -/
def cookie_keywords : List String :=
  ["cookie", "gdpr", "privacy", "consent", "tracking", "analytics",
   "datenschutz", "einverstanden", "zustimm", "akzeptier"]

/-- The joined attribute text of is_likely_cookie_banner (lines 304-309):
id, class, role and aria-label joined by single spaces; id, role and
aria-label are lowercased, the class value is not. -/
def attrsText (a : Attrs) : String :=
  lowerStr (attrGet a "id") ++ " " ++ attrGet a "class" ++ " " ++
    lowerStr (attrGet a "role") ++ " " ++ lowerStr (attrGet a "aria-label")

/-- is_likely_cookie_banner: some keyword occurs in the attribute text.
It reads only the attributes of the element, never its children. -/
def is_likely_cookie_banner (a : Attrs) : Bool :=
  cookie_keywords.any (fun k => containsStr (attrsText a) k)

/-- The cookie/privacy terms of is_likely_cookie_banner_by_text (line 326). -/
def cookie_terms : List String :=
  ["cookie", "gdpr", "datenschutz", "privacy", "consent"]

/-- The action terms (lines 333-337). -/
def action_terms : List String :=
  ["akzeptieren", "zustimmen", "einverstanden", "ablehnen", "mehr erfahren",
   "accept", "agree", "consent", "decline", "learn more", "settings",
   "konfigurieren", "anpassen", "verwalten", "manage", "configure"]

/-- The positioning substrings checked in the style attribute (line 345). -/
def position_style_terms : List String := ["fixed", "sticky", "absolute"]

/-- The positioning substrings checked in class and id (lines 346-347). -/
def position_name_terms : List String := ["top", "bottom", "overlay", "modal"]

/-- is_likely_cookie_banner_by_text (lines 318-350): non-empty stripped
text, a cookie term and an action term in the lowercased subtree text,
and either banner-like positioning or text shorter than 1000 characters. -/
def is_likely_cookie_banner_by_text (n : HNode) : Bool :=
  let raw := getTextN n
  if (raw.filter (fun c => !isWsChar c)).isEmpty then false
  else
    let text := ofChars (raw.map Char.toLower)
    let hasCookie := cookie_terms.any (fun t => containsStr text t)
    if !hasCookie then false
    else
      let hasAction := action_terms.any (fun t => containsStr text t)
      let style := lowerStr (attrGet n.attrs "style")
      let classText := attrGet n.attrs "class"
      let idText := lowerStr (attrGet n.attrs "id")
      let positioned :=
        position_style_terms.any (fun t => containsStr style t) ||
          position_name_terms.any (fun t => containsStr (lowerStr classText) t) ||
          position_name_terms.any (fun t => containsStr idText t)
      hasCookie && hasAction && (positioned || decide (raw.length < 1000))

/-- The whitespace-separated tokens of a class attribute value, as
CSS class selectors match them. -/
def wsTokensAux (cur : List Char) : List Char → List (List Char)
  | [] => [cur.reverse]
  | c :: cs =>
    if isWsChar c then cur.reverse :: wsTokensAux [] cs
    else wsTokensAux (c :: cur) cs

/-- Class token list of a class attribute value. -/
def classTokens (s : String) : List String :=
  ((wsTokensAux [] (chars s)).filter (fun t => !t.isEmpty)).map ofChars

/-- The CSS selector shapes of the cookie_selectors list: #id, .class,
[id*=sub] and [class*=sub]. -/
inductive Sel where
  | idEq (s : String)
  | clsHas (s : String)
  | idSub (s : String)
  | clsSub (s : String)

/-- soup.select matching for the four selector shapes. -/
def selMatches (s : Sel) (n : HNode) : Bool :=
  match s with
  | .idEq v => attrGet n.attrs "id" == v
  | .clsHas v => (classTokens (attrGet n.attrs "class")).contains v
  | .idSub v => containsStr (attrGet n.attrs "id") v
  | .clsSub v => containsStr (attrGet n.attrs "class") v

/-- The cookie_selectors list (scraper.py lines 253-278), in source order. -/
def cookie_selectors : List Sel :=
  [.idEq "cookie-banner", .idEq "cookie-consent", .idEq "cookie-notice",
   .idEq "cookie-bar", .idEq "cookiebar", .idEq "cookie-popup",
   .idEq "cookie-overlay", .idEq "cookie-policy", .idEq "gdpr-banner",
   .idEq "gdpr-consent", .idEq "privacy-banner", .idEq "privacy-notice",
   .idEq "cc-banner", .idEq "cookieConsent", .idEq "cookieBar",
   .idEq "CookieConsent",
   .clsHas "cookie-banner", .clsHas "cookie-consent", .clsHas "cookie-notice",
   .clsHas "cookie-bar", .clsHas "cookiebar", .clsHas "cookie-popup",
   .clsHas "cookie-overlay", .clsHas "cookie-policy", .clsHas "gdpr-banner",
   .clsHas "gdpr-consent", .clsHas "privacy-banner", .clsHas "privacy-notice",
   .clsHas "cookie-warning", .clsHas "cookie-alert", .clsHas "cookie-info",
   .clsHas "cookie-dialog", .clsHas "cc-banner", .clsHas "cc-window",
   .clsHas "cc-compliance", .clsHas "cookieConsent",
   .clsHas "cookie-consent-banner", .clsHas "cookie-notification",
   .clsHas "cookies-notice",
   .clsHas "cookie-law-info-bar", .clsHas "cli-bar-container",
   .clsHas "moove_gdpr_cookie_info_bar", .clsHas "gdpr-cookie-consent-banner",
   .clsHas "wp-gdpr-cookie-notice", .clsHas "catapult-cookie-bar",
   .clsHas "borlabs-cookie-banner", .clsHas "real-cookie-banner",
   .clsHas "cookiebot-banner", .clsHas "iubenda-cookie-banner",
   .clsHas "complianz-cookie-banner", .clsHas "cmplz-cookiebanner",
   .clsHas "uk-cookie-consent", .clsHas "eu-cookie-law",
   .clsHas "cookie-choices-info",
   .clsSub "cookie", .clsSub "gdpr", .clsSub "privacy",
   .idSub "cookie", .idSub "gdpr", .idSub "privacy"]

/-- The removal predicate of one selector pass (lines 281-289): the
element matches the selector and is_likely_cookie_banner confirms it. -/
def cookiePred (s : Sel) (n : HNode) : Bool :=
  selMatches s n && is_likely_cookie_banner n.attrs

/-- One selector pass: select the matching elements and decompose the
confirmed ones. -/
def selPass (d : Option HNode) (s : Sel) : Option HNode :=
  d.bind (pruneN (cookiePred s))

/-- The tag list of the text-based pass (line 292). -/
def text_pass_tags : List String :=
  ["div", "section", "aside", "header", "footer", "nav"]

/-- The removal predicate of the text-based pass (lines 292-296). -/
def textPred (n : HNode) : Bool :=
  text_pass_tags.contains n.tag && is_likely_cookie_banner_by_text n

/-- remove_cookie_banners: every selector pass in source order, then the
text-based pass over div/section/aside/header/footer/nav elements. -/
def remove_cookie_banners (doc : HNode) : Option HNode :=
  (cookie_selectors.foldl selPass (some doc)).bind (pruneN textPred)

/-- Tag search on the optional document left by remove_cookie_banners. -/
def optHasTag (t : String) : Option HNode → Bool
  | some r => hasTagN t r
  | none => false

/-- The C5 counterexample document: the body element itself carries the
id cookie-banner. -/
def claim5Doc : HNode :=
  .elem "html" [] ""
    [.elem "body" [("id", "cookie-banner")] ""
      [.elem "div" [] "Welcome" []]]

/-- The shape invariant of the sanitizer-safety argument: the document is
an html root with the given attributes, and some body child with the
given attributes survives among its children. -/
def RootBodyInv (ah ab : Attrs) (d : Option HNode) : Prop :=
  ∃ th ch, d = some (.elem "html" ah th ch) ∧
    ∃ tb cb, HNode.elem "body" ab tb cb ∈ ch

/-! ## discover_urls_from_page (scraper.py lines 135-155)

The browser render and href extraction are abstracted into the list of
href strings the page.evaluate call returns; the embedded part is the
collection loop (lines 147-150). -/

/-- Add each extracted link to discovered_urls when its normalized form is
same-domain and not already present. -/
def discover_urls_from_page (domain : String) (discovered : List String)
    (links : List String) : List String :=
  links.foldl
    (fun acc link =>
      let n := normalize_url link
      if is_same_domain domain n && !acc.contains n then acc ++ [n] else acc)
    discovered

/-! ## process_html_assets (scraper.py lines 187-246) -/

/-- Set an attribute value (BeautifulSoup element[key] = value). -/
def attrSet : Attrs → String → String → Attrs
  | [], k, v => [(k, v)]
  | (k2, v2) :: rest, k, v =>
    if k2 == k then (k, v) :: rest else (k2, v2) :: attrSet rest k v

mutual
/-- One find_all pass over the whole tree: f rewrites the attributes of
each element from its tag and attribute list and reports the asset URLs
it registered; the pass returns the rewritten tree and all registrations
in document order. -/
def attrPassN (f : String → Attrs → Attrs × List String) :
    HNode → HNode × List String
  | .elem t a s c =>
    (.elem t (f t a).1 s (attrPassL f c).1, (f t a).2 ++ (attrPassL f c).2)
def attrPassL (f : String → Attrs → Attrs × List String) :
    List HNode → List HNode × List String
  | [] => ([], [])
  | n :: ns =>
    ((attrPassN f n).1 :: (attrPassL f ns).1,
      (attrPassN f n).2 ++ (attrPassL f ns).2)
end

/-- The shared body of the asset-attribute passes (img@src, link@href,
script@src, video/audio/source/track@src, video@poster): resolve the
attribute against the page URL; when same-domain and a valid asset,
register it and rewrite the attribute to the relative path. -/
def assetAttrF (domain : String) (st : ScrapeSets) (pageUrl : String)
    (tags : List String) (key : String) (t : String) (a : Attrs) :
    Attrs × List String :=
  if tags.contains t then
    match a.lookup key with
    | some v =>
      let absUrl := urljoin pageUrl v
      if is_same_domain domain absUrl && is_valid_asset st absUrl then
        (attrSet a key (convert_to_relative_path absUrl pageUrl), [absUrl])
      else (a, [])
    | none => (a, [])
  else (a, [])

/-- The anchor pass (lines 216-223): every same-domain a@href not starting
with #, mailto:, tel: or javascript: is rewritten to its relative form;
no asset is registered. -/
def anchorF (domain : String) (pageUrl : String) (t : String) (a : Attrs) :
    Attrs :=
  if t == "a" then
    match a.lookup "href" with
    | some href =>
      if startsWithStr href "#" || startsWithStr href "mailto:" ||
          startsWithStr href "tel:" || startsWithStr href "javascript:" then a
      else
        let absUrl := urljoin pageUrl href
        if is_same_domain domain absUrl then
          attrSet a "href" (convert_to_relative_path absUrl pageUrl)
        else a
    | none => a
  else a

mutual
/-- Turn every input of type submit into a plain button (lines 245-246). -/
def submitFixN : HNode → HNode
  | .elem t a s c =>
    if t == "input" && (attrGet a "type" == "submit") then
      .elem t (attrSet a "type" "button") s (submitFixL c)
    else .elem t a s (submitFixL c)
def submitFixL : List HNode → List HNode
  | [] => []
  | n :: ns => submitFixN n :: submitFixL ns
end

mutual
/-- The form pass (lines 242-246): every form gets an empty action and
method get, and its submit inputs become buttons. -/
def formFixN : HNode → HNode
  | .elem t a s c =>
    if t == "form" then
      .elem t (attrSet (attrSet a "action" "") "method" "get") s
        (submitFixL (formFixL c))
    else .elem t a s (formFixL c)
def formFixL : List HNode → List HNode
  | [] => []
  | n :: ns => formFixN n :: formFixL ns
end

/-- The reference passes of process_html_assets in source order: images,
link elements, scripts, anchors (registering nothing), media sources and
video posters. -/
def htmlPasses (domain : String) (st : ScrapeSets) (pageUrl : String) :
    List (String → Attrs → Attrs × List String) :=
  [assetAttrF domain st pageUrl ["img"] "src",
   assetAttrF domain st pageUrl ["link"] "href",
   assetAttrF domain st pageUrl ["script"] "src",
   fun t a => (anchorF domain pageUrl t a, []),
   assetAttrF domain st pageUrl ["video", "audio", "source", "track"] "src",
   assetAttrF domain st pageUrl ["video"] "poster"]

/-- Run the passes left to right over the tree, collecting the asset
registrations of each pass in order, as the source appends to
self.assets pass by pass. -/
def passChain (fs : List (String → Attrs → Attrs × List String))
    (d : HNode) : HNode × List String :=
  fs.foldl
    (fun acc f => ((attrPassN f acc.1).1, acc.2 ++ (attrPassN f acc.1).2))
    (d, [])

/-- process_html_assets: remove cookie banners, then run the reference
passes in source order, then neutralize forms; returns the rewritten
document and every asset URL registered into self.assets. -/
def process_html_assets (domain : String) (st : ScrapeSets)
    (pageUrl : String) (doc : HNode) : Option HNode × List String :=
  match remove_cookie_banners doc with
  | none => (none, [])
  | some d0 =>
    (some (formFixN (passChain (htmlPasses domain st pageUrl) d0).1),
      (passChain (htmlPasses domain st pageUrl) d0).2)

/-! ## The main scrape loop (scraper.py lines 57-75) and scrape_page
(lines 157-179) -/

/-- The crawl state the main loop mutates. -/
structure CrawlState where
  visited : List String
  scraped_pages : List String
  assets : List String
  savedFiles : List String
  deriving Repr, DecidableEq

/-- scrape_page: fetch the rendered DOM (None models any per-page
exception: navigation failure or timeout, absorbed by the except clause
with only a log line); on success mark the URL as a scraped page, process
the HTML, register the assets, and save the file.  The crawl state is
returned unchanged on failure. -/
def scrape_page_step (domain : String) (discovered : List String)
    (fetch : String → Option HNode) (st : CrawlState) (url : String) :
    CrawlState :=
  match fetch url with
  | none => st
  | some doc =>
    let scraped2 := st.scraped_pages ++ [url]
    let r := process_html_assets domain ⟨scraped2, discovered⟩ url doc
    { st with
      scraped_pages := scraped2,
      assets := addNew st.assets r.2,
      savedFiles := st.savedFiles ++ [save_html_path url] }

/-- One iteration of the main loop (lines 58-68): skip URLs already
visited, otherwise scrape the page — successfully or not — and add the
URL to visited_urls unconditionally. -/
def scrape_visit_step (domain : String) (discovered : List String)
    (fetch : String → Option HNode) (st : CrawlState) (url : String) :
    CrawlState :=
  if st.visited.contains url then st
  else
    let st2 := scrape_page_step domain discovered fetch st url
    { st2 with visited := st2.visited ++ [url] }

/-- The main scrape loop over the discovered URLs, from the empty crawl
state.  The reported completed-page count at line 74 is the length of the
final visited set. -/
def scrape_loop (domain : String) (fetch : String → Option HNode)
    (discovered : List String) : CrawlState :=
  discovered.foldl (scrape_visit_step domain discovered fetch) ⟨[], [], [], []⟩

end WpScraper

open WpScraper

/-- C4: the path resolver satisfies the two depth examples of the spec:
a page-like target from the root page gains "./" and a trailing
"/index.html", and an asset target from a depth-2 page gains "../../". -/
theorem claim4_depth_examples :
    convert_to_relative_path "https://x/a/b/c" "https://x/" = "./a/b/c/index.html" ∧
    convert_to_relative_path "https://x/img.png" "https://x/a/b/" = "../../img.png" := by
  constructor <;> rfl

/-- C8 counterexample: a path with the page-like extension ".htm" is not
saved as-is; save_html_file appends ".html" to every page-like path that
does not already end in ".html", so /contact.htm is written to
contact.htm.html, refuting the "maps to path unchanged" clause. -/
theorem claim8_counterexample_htm_extended :
    save_html_path "https://x/contact.htm" = "contact.htm.html" ∧
    save_html_path "https://x/contact.htm" ≠ "contact.htm" := by
  refine ⟨rfl, by decide⟩

/-- C8 amended: save_html_file computes the output path by the
path-mapping rule: root maps to index.html; a path ending in / maps to
path/index.html; a path with a page-like extension maps to the stripped
path when it already ends in ".html" and to the stripped path with
".html" appended otherwise; any other path maps to path/index.html. -/
theorem claim8_path_mapping_rule (url p : String)
    (hp : (urlparse url).path = p) :
    ((p = "" ∨ p = "/") → save_html_path url = "index.html") ∧
    (p ≠ "" → p ≠ "/" → endsWithStr p "/" = true →
      save_html_path url = stripSlash p ++ "/index.html") ∧
    (p ≠ "" → p ≠ "/" → endsWithStr p "/" = false →
      pageLikeExts.any (fun e => endsWithStr (lowerStr p) e) = true →
      save_html_path url =
        (if endsWithStr (stripSlash p) ".html" then stripSlash p
         else stripSlash p ++ ".html")) ∧
    (p ≠ "" → p ≠ "/" → endsWithStr p "/" = false →
      pageLikeExts.any (fun e => endsWithStr (lowerStr p) e) = false →
      save_html_path url = stripSlash p ++ "/index.html") := by
  subst hp
  refine ⟨?_, ?_, ?_, ?_⟩
  · rintro (h | h) <;> simp [save_html_path, h]
  · intro h1 h2 h3
    simp [save_html_path, h1, h2, h3]
  · intro h1 h2 h3 h4
    simp [save_html_path, h1, h2, h3, h4]
  · intro h1 h2 h3 h4
    simp [save_html_path, h1, h2, h3, h4]

/-- C8 witness: the amended rule applied to a concrete .php page URL. -/
theorem claim8_path_mapping_rule_witness :
    save_html_path "https://x/a.php" = "a.php.html" :=
  (claim8_path_mapping_rule "https://x/a.php" "/a.php" rfl).2.2.1
    (by decide) (by decide) (by decide) (by decide)

/-- C9: is_valid_asset accepts a URL only if its lowercased path ends in a
recognized asset extension, and rejects every URL known as a page (in
scraped_pages or discovered_urls), every URL containing a query marker,
and every URL containing an excluded dynamic-endpoint substring. -/
theorem claim9_is_valid_asset_filter (st : ScrapeSets) (url : String) :
    (is_valid_asset st url = true →
      asset_extensions.any
        (fun e => endsWithStr (lowerStr (urlparse url).path) e) = true) ∧
    (st.scraped_pages.contains url = true → is_valid_asset st url = false) ∧
    (st.discovered_urls.contains url = true → is_valid_asset st url = false) ∧
    (containsStr url "?" = true → is_valid_asset st url = false) ∧
    (∀ p ∈ invalid_paths, containsStr url p = true →
      is_valid_asset st url = false) := by
  have hchar : is_valid_asset st url =
      (!(st.scraped_pages.contains url) && !(st.discovered_urls.contains url) &&
       asset_extensions.any (fun e => endsWithStr (lowerStr (urlparse url).path) e) &&
       !(invalid_paths.any (fun p => containsStr url p))) := by
    unfold is_valid_asset
    by_cases h1 : st.scraped_pages.contains url <;>
      by_cases h2 : st.discovered_urls.contains url <;>
        by_cases h3 : asset_extensions.any
          (fun e => endsWithStr (lowerStr (urlparse url).path) e) <;>
          simp [h1, h2, h3, Bool.and_assoc]
  rw [hchar]
  refine ⟨?_, ?_, ?_, ?_, ?_⟩
  · intro h
    have := (Bool.and_eq_true _ _).mp h
    exact ((Bool.and_eq_true _ _).mp this.1).2
  · intro h; rw [h]; simp
  · intro h; rw [h]; simp
  · intro hq
    have hD : invalid_paths.any (fun p => containsStr url p) = true :=
      List.any_eq_true.mpr ⟨"?", by decide, hq⟩
    simp [hD]
  · intro p hp hc
    have hD : invalid_paths.any (fun q => containsStr url q) = true :=
      List.any_eq_true.mpr ⟨p, hp, hc⟩
    simp [hD]

/-- C9 witness: a URL that is already a scraped page is rejected as an
asset. -/
theorem claim9_is_valid_asset_filter_witness :
    is_valid_asset ⟨["https://x/a.png"], []⟩ "https://x/a.png" = false :=
  (claim9_is_valid_asset_filter ⟨["https://x/a.png"], []⟩
    "https://x/a.png").2.1 (by decide)

/-- C1: when the computed local path of an asset already exists as a
directory (and the renamed path does not), download_asset neither fails
nor overwrites: it writes under the renamed path in the same directory,
the new basename being the old one with "_asset" inserted before the
extension (when the basename has one), and emits the conflict log line
(the Bool component records that the rename was logged). -/
theorem claim1_dir_conflict_renames_asset (fs : Fs) (url ap : String)
    (hap : stripSlash (urlparse url).path = ap)
    (hne : ap ≠ "")
    (hdir : fs.isDir ap = true)
    (hfree : fs.isDir
      (pathJoin (dirnameStr ap) (assetConflictName (basenameStr ap))) = false) :
    download_asset_target fs url =
      (.written (pathJoin (dirnameStr ap) (assetConflictName (basenameStr ap))),
        true) ∧
    (containsStr (basenameStr ap) "." = true →
      assetConflictName (basenameStr ap) =
        (splitextStr (basenameStr ap)).1 ++ "_asset" ++
          (splitextStr (basenameStr ap)).2) := by
  have h0 : (ap == "") = false := by
    cases h : ap == "" with
    | true => exact absurd (by simpa using h) hne
    | false => rfl
  constructor
  · unfold download_asset_target
    rw [hap]
    simp [h0, hdir, hfree]
  · intro hdot
    unfold assetConflictName
    rw [hdot]
    simp

/-- C1 witness: the page at /blog/logo.png was mirrored as a directory, so
the asset at the same URL is written to blog/logo_asset.png with the
conflict logged. -/
theorem claim1_dir_conflict_renames_asset_witness :
    download_asset_target ⟨["blog", "blog/logo.png"]⟩ "https://x/blog/logo.png" =
      (.written "blog/logo_asset.png", true) ∧
    (containsStr (basenameStr "blog/logo.png") "." = true →
      assetConflictName (basenameStr "blog/logo.png") =
        (splitextStr (basenameStr "blog/logo.png")).1 ++ "_asset" ++
          (splitextStr (basenameStr "blog/logo.png")).2) :=
  claim1_dir_conflict_renames_asset ⟨["blog", "blog/logo.png"]⟩
    "https://x/blog/logo.png" "blog/logo.png" rfl (by decide) (by decide)
    (by decide)

/-- The network oracle of the C2 scenario: a CSS file in /css/ referencing
a font one directory up, plus the font itself. -/
def claim2Net (u : String) : Option String :=
  if u == "https://x/css/style.css" then some "background:url(../fonts/a.woff);"
  else if u == "https://x/fonts/a.woff" then some "FONT"
  else none

/-- The drain state of the C2 scenario before download_assets runs: the
stylesheet was registered as an asset during page rewriting. -/
def claim2St : DrainState :=
  ⟨"x", [], ["https://x"], ["https://x/css/style.css"], ⟨[]⟩, [], []⟩

/-- C2: evaluation of the asset-download phase on a CSS file at
/css/style.css containing url(../fonts/a.woff).  The code rewrites the
reference to url(fonts/a.woff) — lstrip('./') strips the leading "../"
characters, so relative to the CSS output location the reference resolves
to /css/fonts/a.woff instead of /fonts/a.woff — and although the font URL
is registered in the asset set, download_assets iterates only the
snapshot taken before the loop, so the font is never downloaded and does
not appear in the asset-download report, contradicting the claim on both
counts. -/
theorem claim2_css_rewrite_and_drain_eval :
    (download_assets_drain claim2Net claim2St).cssOut =
      [("css/style.css", "background:url(fonts/a.woff);")] ∧
    (download_assets_drain claim2Net claim2St).assets =
      ["https://x/css/style.css", "https://x/fonts/a.woff"] ∧
    (download_assets_drain claim2Net claim2St).report =
      ["https://x/css/style.css"] ∧
    (download_assets_drain claim2Net claim2St).report.contains
      "https://x/fonts/a.woff" = false := by
  refine ⟨rfl, rfl, rfl, rfl⟩

/-- A node rejected by the removal predicate is kept, its children pruned. -/
theorem pruneN_keep (p : HNode → Bool) (t : String) (a : Attrs) (s : String)
    (c : List HNode) (h : p (.elem t a s c) = false) :
    pruneN p (.elem t a s c) = some (.elem t a s (pruneL p c)) := by
  unfold pruneN
  rw [h]
  simp

/-- The pruned image of a kept member of a list stays a member of the
pruned list. -/
theorem pruneL_mem (p : HNode → Bool) (n m : HNode) (c : List HNode)
    (hmem : n ∈ c) (hkeep : pruneN p n = some m) : m ∈ pruneL p c := by
  induction c with
  | nil => cases hmem
  | cons hd tl ih =>
    rcases List.mem_cons.mp hmem with heq | htl
    · subst heq
      simp only [pruneL, hkeep]
      exact List.mem_cons_self _ _
    · cases hpr : pruneN p hd with
      | none => simpa only [pruneL, hpr] using ih htl
      | some m2 =>
        simp only [pruneL, hpr]
        exact List.mem_cons_of_mem _ (ih htl)

/-- The selector-pass removal predicate rejects every element whose
attributes fail is_likely_cookie_banner, whatever the selector. -/
theorem cookiePred_attrs_false (s : Sel) (t : String) (a : Attrs)
    (tx : String) (c : List HNode) (h : is_likely_cookie_banner a = false) :
    cookiePred s (.elem t a tx c) = false := by
  unfold cookiePred
  have ha : (HNode.elem t a tx c).attrs = a := rfl
  rw [ha, h, Bool.and_false]

/-- One selector pass preserves the html root and a keyword-free body
child. -/
theorem selPass_rootBody (ah ab : Attrs)
    (hha : is_likely_cookie_banner ah = false)
    (hba : is_likely_cookie_banner ab = false)
    (d : Option HNode) (s : Sel) (h : RootBodyInv ah ab d) :
    RootBodyInv ah ab (selPass d s) := by
  obtain ⟨th, ch, rfl, tb, cb, hmem⟩ := h
  have hroot := pruneN_keep (cookiePred s) "html" ah th ch
    (cookiePred_attrs_false s _ _ _ _ hha)
  have hbody := pruneN_keep (cookiePred s) "body" ab tb cb
    (cookiePred_attrs_false s _ _ _ _ hba)
  refine ⟨th, pruneL (cookiePred s) ch, ?_, tb, pruneL (cookiePred s) cb, ?_⟩
  · simpa only [selPass, Option.bind] using hroot
  · exact pruneL_mem _ _ _ _ hmem hbody

/-- Every selector pass in sequence preserves the html root and a
keyword-free body child. -/
theorem foldl_selPass_rootBody (ah ab : Attrs)
    (hha : is_likely_cookie_banner ah = false)
    (hba : is_likely_cookie_banner ab = false) :
    ∀ (sels : List Sel) (d : Option HNode), RootBodyInv ah ab d →
      RootBodyInv ah ab (sels.foldl selPass d)
  | [], _, h => h
  | s :: rest, d, h =>
    foldl_selPass_rootBody ah ab hha hba rest (selPass d s)
      (selPass_rootBody ah ab hha hba d s h)

/-- The text-based pass never selects an html element: its tag filter
admits only div, section, aside, header, footer and nav. -/
theorem textPred_html (ah : Attrs) (th : String) (ch : List HNode) :
    textPred (.elem "html" ah th ch) = false := rfl

/-- The text-based pass never selects a body element either. -/
theorem textPred_body (ab : Attrs) (tb : String) (cb : List HNode) :
    textPred (.elem "body" ab tb cb) = false := rfl

/-- A body element in a list makes hasTagL find the body tag. -/
theorem hasTagL_body_of_mem (ab : Attrs) (tb : String) (cb ch : List HNode)
    (hmem : HNode.elem "body" ab tb cb ∈ ch) : hasTagL "body" ch = true := by
  induction ch with
  | nil => cases hmem
  | cons hd tl ih =>
    rcases List.mem_cons.mp hmem with heq | htl
    · subst heq
      rfl
    · simp [hasTagL, ih htl]

/-- C5 counterexample: the sanitizer removes a body element that carries
the id cookie-banner — the selector pass has no html/body guard — so the
sanitized document of claim5Doc no longer contains a body element. -/
theorem claim5_counterexample_body_removed :
    hasTagN "body" claim5Doc = true ∧
    optHasTag "body" (remove_cookie_banners claim5Doc) = false := by
  exact ⟨rfl, by decide⟩

/-- C5 amended: the text-based heuristic can never remove the html or
body element (its tag filter admits only div/section/aside/header/footer
/nav), and the attribute-based selector passes remove an element only
when is_likely_cookie_banner accepts its attributes; hence sanitization
preserves the html root and the body element of every document whose
html and body attributes carry no cookie keyword — but a body or html
element whose own id/class/role/aria-label matches the heuristic is
removed, as the counterexample shows. -/
theorem claim5_sanitizer_preserves_keyword_free_roots (ah ab : Attrs)
    (th tb : String) (pre post cb : List HNode)
    (hha : is_likely_cookie_banner ah = false)
    (hba : is_likely_cookie_banner ab = false) :
    ∃ r, remove_cookie_banners
        (.elem "html" ah th (pre ++ HNode.elem "body" ab tb cb :: post)) =
          some r ∧ hasTagN "body" r = true := by
  have h0 : RootBodyInv ah ab
      (some (.elem "html" ah th (pre ++ HNode.elem "body" ab tb cb :: post))) :=
    ⟨th, _, rfl, tb, cb, by simp⟩
  have h1 := foldl_selPass_rootBody ah ab hha hba cookie_selectors _ h0
  obtain ⟨th2, ch2, heq, tb2, cb2, hmem⟩ := h1
  unfold remove_cookie_banners
  rw [heq]
  have hroot := pruneN_keep textPred "html" ah th2 ch2 (textPred_html ah th2 ch2)
  refine ⟨.elem "html" ah th2 (pruneL textPred ch2), ?_, ?_⟩
  · simpa only [Option.bind] using hroot
  · have hbody := pruneN_keep textPred "body" ab tb2 cb2
      (textPred_body ab tb2 cb2)
    have hmem2 := pruneL_mem textPred _ _ _ hmem hbody
    have hfound := hasTagL_body_of_mem ab tb2 (pruneL textPred cb2) _ hmem2
    simp [hasTagN, hfound]

/-- C5 witness: a concrete document with keyword-free html and body
attributes keeps its body through sanitization. -/
theorem claim5_sanitizer_preserves_keyword_free_roots_witness :
    ∃ r, remove_cookie_banners
        (.elem "html" [] ""
          [HNode.elem "body" [("class", "main")] "" [HNode.elem "p" [] "hi" []]]) =
          some r ∧ hasTagN "body" r = true :=
  claim5_sanitizer_preserves_keyword_free_roots [] [("class", "main")] "" ""
    [] [] [HNode.elem "p" [] "hi" []] (by decide) (by decide)

/-- Every asset URL the shared asset-attribute pass body registers passed
the is_same_domain test. -/
theorem assetAttrF_assets (dom : String) (st : ScrapeSets) (purl : String)
    (tags : List String) (key : String) (t : String) (a : Attrs) (u : String)
    (hu : u ∈ (assetAttrF dom st purl tags key t a).2) :
    is_same_domain dom u = true := by
  unfold assetAttrF at hu
  by_cases h1 : tags.contains t = true
  · rw [if_pos h1] at hu
    cases hl : a.lookup key with
    | none =>
      rw [hl] at hu
      simp at hu
    | some v =>
      rw [hl] at hu
      have hu2 : u ∈ (if (is_same_domain dom (urljoin purl v) &&
          is_valid_asset st (urljoin purl v)) = true then
            (attrSet a key (convert_to_relative_path (urljoin purl v) purl),
              [urljoin purl v])
          else (a, [])).2 := hu
      by_cases h2 : (is_same_domain dom (urljoin purl v) &&
          is_valid_asset st (urljoin purl v)) = true
      · rw [if_pos h2] at hu2
        have he : u = urljoin purl v := by simpa using hu2
        rw [he]
        exact ((Bool.and_eq_true _ _).mp h2).1
      · rw [if_neg h2] at hu2
        simp at hu2
  · rw [if_neg h1] at hu
    simp at hu

mutual
/-- When the per-element rewrite only registers same-domain URLs, so does
the whole tree pass. -/
theorem attrPassN_assets (dom : String)
    (f : String → Attrs → Attrs × List String)
    (hf : ∀ t a u, u ∈ (f t a).2 → is_same_domain dom u = true) :
    ∀ (n : HNode) (u : String),
      u ∈ (attrPassN f n).2 → is_same_domain dom u = true
  | .elem t a s c, u, hu => by
    have e : (attrPassN f (.elem t a s c)).2 =
        (f t a).2 ++ (attrPassL f c).2 := rfl
    rw [e] at hu
    rcases List.mem_append.mp hu with h | h
    · exact hf t a u h
    · exact attrPassL_assets dom f hf c u h
/-- List version of attrPassN_assets. -/
theorem attrPassL_assets (dom : String)
    (f : String → Attrs → Attrs × List String)
    (hf : ∀ t a u, u ∈ (f t a).2 → is_same_domain dom u = true) :
    ∀ (l : List HNode) (u : String),
      u ∈ (attrPassL f l).2 → is_same_domain dom u = true
  | [], u, hu => by simp [attrPassL] at hu
  | n :: ns, u, hu => by
    have e : (attrPassL f (n :: ns)).2 =
        (attrPassN f n).2 ++ (attrPassL f ns).2 := rfl
    rw [e] at hu
    rcases List.mem_append.mp hu with h | h
    · exact attrPassN_assets dom f hf n u h
    · exact attrPassL_assets dom f hf ns u h
end

/-- A fold over passes that each register only same-domain URLs keeps the
collected list same-domain. -/
theorem passChain_assets (dom : String) :
    ∀ (fs : List (String → Attrs → Attrs × List String)),
      (∀ f ∈ fs, ∀ t a u, u ∈ (f t a).2 → is_same_domain dom u = true) →
      ∀ (start : HNode × List String),
        (∀ u ∈ start.2, is_same_domain dom u = true) →
        ∀ u, u ∈ (fs.foldl
          (fun acc f => ((attrPassN f acc.1).1, acc.2 ++ (attrPassN f acc.1).2))
          start).2 → is_same_domain dom u = true := by
  intro fs
  induction fs with
  | nil =>
    intro _ start hs u hu
    exact hs u hu
  | cons f gs ih =>
    intro hfs start hs u hu
    rw [List.foldl_cons] at hu
    refine ih (fun g hg => hfs g (List.mem_cons_of_mem f hg)) _ ?_ u hu
    intro v hv
    rcases List.mem_append.mp hv with h | h
    · exact hs v h
    · exact attrPassN_assets dom f (hfs f (List.mem_cons_self f gs)) _ v h

/-- The defining equation of process_html_assets, restated so the match
on the sanitized document can be rewritten without unfolding the
sanitizer itself. -/
theorem process_html_assets_def (dom : String) (st : ScrapeSets)
    (purl : String) (doc : HNode) :
    process_html_assets dom st purl doc =
      match remove_cookie_banners doc with
      | none => (none, [])
      | some d0 =>
        (some (formFixN (passChain (htmlPasses dom st purl) d0).1),
          (passChain (htmlPasses dom st purl) d0).2) := rfl

/-- Every asset URL process_html_assets registers passed the
is_same_domain test. -/
theorem process_html_assets_same_domain (dom : String) (st : ScrapeSets)
    (purl : String) (doc : HNode) (u : String)
    (hu : u ∈ (process_html_assets dom st purl doc).2) :
    is_same_domain dom u = true := by
  rw [process_html_assets_def] at hu
  cases hrb : remove_cookie_banners doc with
  | none =>
    rw [hrb] at hu
    exact absurd hu (List.not_mem_nil u)
  | some d0 =>
    rw [hrb] at hu
    have hu2 : u ∈ (passChain (htmlPasses dom st purl) d0).2 := hu
    have hfs : ∀ f ∈ htmlPasses dom st purl, ∀ t a v,
        v ∈ (f t a).2 → is_same_domain dom v = true := by
      intro f hf
      simp only [htmlPasses, List.mem_cons, List.not_mem_nil, or_false] at hf
      rcases hf with h | h | h | h | h | h <;> subst h
      · exact fun t a v hv => assetAttrF_assets dom st purl _ _ t a v hv
      · exact fun t a v hv => assetAttrF_assets dom st purl _ _ t a v hv
      · exact fun t a v hv => assetAttrF_assets dom st purl _ _ t a v hv
      · intro t a v hv
        simp at hv
      · exact fun t a v hv => assetAttrF_assets dom st purl _ _ t a v hv
      · exact fun t a v hv => assetAttrF_assets dom st purl _ _ t a v hv
    have hu3 : u ∈ ((htmlPasses dom st purl).foldl
        (fun acc f => ((attrPassN f acc.1).1, acc.2 ++ (attrPassN f acc.1).2))
        (d0, [])).2 := hu2
    exact passChain_assets dom (htmlPasses dom st purl) hfs (d0, [])
      (fun v hv => absurd hv (List.not_mem_nil v)) u hu3

/-- Every asset URL the CSS replace_url closure registers passed the
is_same_domain test. -/
theorem css_replace_url_assets (dom : String) (st : ScrapeSets)
    (cssUrl mt inner u : String)
    (hu : u ∈ (css_replace_url dom st cssUrl mt inner).2) :
    is_same_domain dom u = true := by
  unfold css_replace_url at hu
  by_cases h1 : (startsWithStr inner "http://" || startsWithStr inner "https://" ||
      startsWithStr inner "data:" || startsWithStr inner "//") = true
  · rw [if_pos h1] at hu
    simp at hu
  · rw [if_neg h1] at hu
    have hu2 : u ∈ (if (is_same_domain dom (urljoin cssUrl inner) &&
        is_valid_asset st (urljoin cssUrl inner)) = true then
          ("url(" ++ lstripDotSlash (convert_to_relative_path
            (urljoin cssUrl inner) cssUrl) ++ ")", [urljoin cssUrl inner])
        else (mt, [])).2 := hu
    by_cases h2 : (is_same_domain dom (urljoin cssUrl inner) &&
        is_valid_asset st (urljoin cssUrl inner)) = true
    · rw [if_pos h2] at hu2
      have he : u = urljoin cssUrl inner := by simpa using hu2
      rw [he]
      exact ((Bool.and_eq_true _ _).mp h2).1
    · rw [if_neg h2] at hu2
      simp at hu2

/-- Every asset URL the CSS scanner registers passed the is_same_domain
test. -/
theorem cssScanAux_same_domain (dom : String) (st : ScrapeSets)
    (cssUrl : String) :
    ∀ (fuel : Nat) (l : List Char) (u : String),
      u ∈ (cssScanAux dom st cssUrl fuel l).2 →
      is_same_domain dom u = true := by
  intro fuel
  induction fuel with
  | zero => intro l u hu; simp [cssScanAux] at hu
  | succ k ih =>
    intro l u hu
    cases l with
    | nil => simp [cssScanAux] at hu
    | cons c cs =>
      by_cases h1 : leadsL (chars "url(") (c :: cs) = true
      · cases hm : cssMatchAfterParen (cs.drop 3) with
        | none =>
          have e : (cssScanAux dom st cssUrl (k + 1) (c :: cs)).2 =
              (cssScanAux dom st cssUrl k cs).2 := by
            simp [cssScanAux, h1, hm]
          rw [e] at hu
          exact ih cs u hu
        | some quad =>
          obtain ⟨q1, grp, q2, rest⟩ := quad
          have e : (cssScanAux dom st cssUrl (k + 1) (c :: cs)).2 =
              (css_replace_url dom st cssUrl
                ("url(" ++ optStr q1 ++ ofChars grp ++ optStr q2 ++ ")")
                (ofChars grp)).2 ++ (cssScanAux dom st cssUrl k rest).2 := by
            simp [cssScanAux, h1, hm]
          rw [e] at hu
          rcases List.mem_append.mp hu with h | h
          · exact css_replace_url_assets dom st cssUrl _ _ u h
          · exact ih rest u h
      · have e : (cssScanAux dom st cssUrl (k + 1) (c :: cs)).2 =
            (cssScanAux dom st cssUrl k cs).2 := by
          simp [cssScanAux, h1]
        rw [e] at hu
        exact ih cs u hu

/-- Every asset URL CSS post-processing registers passed the
is_same_domain test. -/
theorem process_css_text_same_domain (dom : String) (st : ScrapeSets)
    (cssUrl content u : String)
    (hu : u ∈ (process_css_text dom st cssUrl content).2) :
    is_same_domain dom u = true :=
  cssScanAux_same_domain dom st cssUrl (chars content).length (chars content) u hu

/-- A foldl step that only ever appends accepted URLs to the adds field
propagates acceptance through the whole fold. -/
theorem sitemap_foldl_adds (P : String → Prop) (step : SmRes → String → SmRes)
    (hstep : ∀ acc x u, u ∈ (step acc x).adds → u ∈ acc.adds ∨ P u) :
    ∀ (l : List String) (acc : SmRes) (u : String),
      u ∈ (l.foldl step acc).adds → u ∈ acc.adds ∨ P u := by
  intro l
  induction l with
  | nil => intro acc u hu; exact Or.inl hu
  | cons x xs ih =>
    intro acc u hu
    rw [List.foldl_cons] at hu
    rcases ih (step acc x) u hu with h | h
    · exact hstep acc x u h
    · exact Or.inr h

/-- Every URL parse_sitemap adds to the discovered set is the normalized
form of a location that passed the is_same_domain test. -/
theorem parse_sitemap_adds_same_domain (net : String → Option SmDoc)
    (dom : String) :
    ∀ (fuel : Nat) (doc : SmDoc) (u : String),
      u ∈ (parse_sitemap net dom fuel doc).adds →
      ∃ l, is_same_domain dom l = true ∧ u = normalize_url l := by
  intro fuel
  induction fuel with
  | zero => intro doc u hu; simp [parse_sitemap] at hu
  | succ k ih =>
    intro doc u hu
    have e : (parse_sitemap net dom (k + 1) doc).adds =
        (doc.childSitemaps.foldl
          (fun (acc : SmRes) (loc : String) =>
            match net loc with
            | none => acc
            | some d =>
              let r := parse_sitemap net dom k d
              ⟨acc.fetched ++ loc :: r.fetched, acc.adds ++ r.adds,
                acc.completed && r.completed⟩)
          (⟨[], [], true⟩ : SmRes)).adds ++
        doc.urlEntries.filterMap
          (fun v => if is_same_domain dom v then some (normalize_url v)
            else none) := rfl
    rw [e] at hu
    have hstep : ∀ (acc : SmRes) (x v : String),
        v ∈ ((fun (acc : SmRes) (loc : String) =>
            match net loc with
            | none => acc
            | some d =>
              let r := parse_sitemap net dom k d
              ⟨acc.fetched ++ loc :: r.fetched, acc.adds ++ r.adds,
                acc.completed && r.completed⟩) acc x).adds →
        v ∈ acc.adds ∨
          ∃ l, is_same_domain dom l = true ∧ v = normalize_url l := by
      intro acc x v hv
      cases hn : net x with
      | none =>
        simp only [hn] at hv
        exact Or.inl hv
      | some d =>
        simp only [hn] at hv
        have hv2 : v ∈ acc.adds ++ (parse_sitemap net dom k d).adds := hv
        rcases List.mem_append.mp hv2 with h2 | h2
        · exact Or.inl h2
        · exact Or.inr (ih d v h2)
    rcases List.mem_append.mp hu with h | h
    · rcases sitemap_foldl_adds _ _ hstep doc.childSitemaps ⟨[], [], true⟩ u h
        with h2 | h2
      · simp at h2
      · exact h2
    · rcases List.mem_filterMap.mp h with ⟨v, hv, hvs⟩
      by_cases hd : is_same_domain dom v = true
      · rw [if_pos hd] at hvs
        exact ⟨v, hd, (Option.some_inj.mp hvs).symm⟩
      · rw [if_neg hd] at hvs
        cases hvs

/-- Every URL the homepage link-extraction loop adds to the discovered
set passed the is_same_domain test. -/
theorem discover_urls_from_page_same_domain (dom : String) :
    ∀ (links init : List String) (u : String),
      u ∈ discover_urls_from_page dom init links →
      u ∈ init ∨ is_same_domain dom u = true := by
  intro links
  induction links with
  | nil => intro init u hu; exact Or.inl hu
  | cons l ls ih =>
    intro init u hu
    rw [discover_urls_from_page, List.foldl_cons] at hu
    have hu2 : u ∈ discover_urls_from_page dom
        (if (is_same_domain dom (normalize_url l) &&
            !(init.contains (normalize_url l))) = true
         then init ++ [normalize_url l] else init) ls := by
      rw [discover_urls_from_page]
      exact hu
    rcases ih _ u hu2 with h | h
    · by_cases hc : (is_same_domain dom (normalize_url l) &&
          !(init.contains (normalize_url l))) = true
      · rw [if_pos hc] at h
        rcases List.mem_append.mp h with h2 | h2
        · exact Or.inl h2
        · have he : u = normalize_url l := by simpa using h2
          rw [he]
          exact Or.inr ((Bool.and_eq_true _ _).mp hc).1
      · rw [if_neg hc] at h
        exact Or.inl h
    · exact Or.inr h

/-- The is_same_domain test is exactly the three-way netloc comparison of
scraper.py line 573. -/
theorem is_same_domain_iff (dom url : String) :
    is_same_domain dom url = true ↔
      ((urlparse url).netloc = dom ∨ (urlparse url).netloc = "www." ++ dom ∨
        (urlparse url).netloc = ofChars (removeWWW (chars dom))) := by
  unfold is_same_domain
  simp [Bool.or_eq_true, or_assoc]

/-- C7 counterexample: the claim restricts same-domain hosts to the root
host with or without a www. prefix, but is_same_domain compares against
self.domain.replace("www.", ""), which removes the substring anywhere.
For the root host awww.example.com, a link on host aexample.com — not the
root host, not www. plus it, and not the root host minus a www. prefix
(the root host has no such prefix) — is accepted and added to the
discovered set by the link-extraction loop. -/
theorem claim7_counterexample_inner_www :
    discover_urls_from_page "awww.example.com" [] ["https://aexample.com/page"] =
      ["https://aexample.com/page"] ∧
    (urlparse "https://aexample.com/page").netloc = "aexample.com" ∧
    "aexample.com" ≠ "awww.example.com" ∧
    "aexample.com" ≠ "www." ++ "awww.example.com" ∧
    "www." ++ "aexample.com" ≠ "awww.example.com" := by
  refine ⟨rfl, rfl, by decide, by decide, by decide⟩

/-- C7 amended: every URL any pipeline operation adds to the discovered
or asset sets passed the is_same_domain test (sitemap url entries are
tested before normalization), and that test accepts exactly the hosts
equal to the scraper domain, to "www." prepended to it, or to the domain
with every occurrence of the substring "www." removed — not only a
leading one. -/
theorem claim7_same_domain_invariant (dom : String) :
    (∀ (net : String → Option SmDoc) (fuel : Nat) (doc : SmDoc) (u : String),
      u ∈ (parse_sitemap net dom fuel doc).adds →
      ∃ l, is_same_domain dom l = true ∧ u = normalize_url l) ∧
    (∀ (links init : List String) (u : String),
      u ∈ discover_urls_from_page dom init links →
      u ∈ init ∨ is_same_domain dom u = true) ∧
    (∀ (st : ScrapeSets) (purl : String) (doc : HNode) (u : String),
      u ∈ (process_html_assets dom st purl doc).2 →
      is_same_domain dom u = true) ∧
    (∀ (st : ScrapeSets) (cssUrl content u : String),
      u ∈ (process_css_text dom st cssUrl content).2 →
      is_same_domain dom u = true) ∧
    (∀ url, is_same_domain dom url = true ↔
      ((urlparse url).netloc = dom ∨ (urlparse url).netloc = "www." ++ dom ∨
        (urlparse url).netloc = ofChars (removeWWW (chars dom)))) :=
  ⟨fun net fuel doc u hu => parse_sitemap_adds_same_domain net dom fuel doc u hu,
   fun links init u hu => discover_urls_from_page_same_domain dom links init u hu,
   fun st purl doc u hu => process_html_assets_same_domain dom st purl doc u hu,
   fun st cssUrl content u hu =>
     process_css_text_same_domain dom st cssUrl content u hu,
   fun url => is_same_domain_iff dom url⟩

/-- C7 witness: the invariant applied to a concrete link accepted from a
homepage render. -/
theorem claim7_same_domain_invariant_witness :
    "https://x.com/a" ∈ ([] : List String) ∨
      is_same_domain "x.com" "https://x.com/a" = true :=
  (claim7_same_domain_invariant "x.com").2.1 ["https://x.com/a"] []
    "https://x.com/a" (by decide)

/-- scrape_page never touches the visited set: its exceptions are
absorbed and it changes only page, asset and file bookkeeping. -/
theorem scrape_page_step_visited (domain : String) (disc : List String)
    (fetch : String → Option HNode) (st : CrawlState) (url : String) :
    (scrape_page_step domain disc fetch st url).visited = st.visited := by
  unfold scrape_page_step
  cases fetch url <;> rfl

/-- One loop iteration leaves exactly the old visited set plus the
processed URL, whether or not the fetch succeeded. -/
theorem scrape_visit_step_visited_iff (domain : String) (disc : List String)
    (fetch : String → Option HNode) (st : CrawlState) (url v : String) :
    v ∈ (scrape_visit_step domain disc fetch st url).visited ↔
      v ∈ st.visited ∨ v = url := by
  unfold scrape_visit_step
  by_cases hc : st.visited.contains url = true
  · rw [if_pos hc]
    have hm : url ∈ st.visited := by simpa using hc
    constructor
    · exact fun h => Or.inl h
    · rintro (h | rfl)
      · exact h
      · exact hm
  · rw [if_neg hc]
    have hv := scrape_page_step_visited domain disc fetch st url
    constructor
    · intro h
      have h2 : v ∈ (scrape_page_step domain disc fetch st url).visited ++
          [url] := h
      rcases List.mem_append.mp h2 with h3 | h3
      · rw [hv] at h3
        exact Or.inl h3
      · exact Or.inr (by simpa using h3)
    · intro h
      show v ∈ (scrape_page_step domain disc fetch st url).visited ++ [url]
      rcases h with h | rfl
      · exact List.mem_append.mpr (Or.inl (hv ▸ h))
      · exact List.mem_append.mpr (Or.inr (by simp))

/-- The visited set after the loop is the initial one plus every URL of
the iterated list. -/
theorem scrape_loop_visited_iff (domain : String)
    (fetch : String → Option HNode) (disc : List String) :
    ∀ (l : List String) (st : CrawlState) (v : String),
      v ∈ (l.foldl (scrape_visit_step domain disc fetch) st).visited ↔
        v ∈ st.visited ∨ v ∈ l := by
  intro l
  induction l with
  | nil =>
    intro st v
    simp
  | cons x xs ih =>
    intro st v
    rw [List.foldl_cons, ih, scrape_visit_step_visited_iff]
    simp only [List.mem_cons]
    tauto

/-- When the iterated URLs are distinct and none was visited before, the
loop grows the visited set by exactly their number. -/
theorem scrape_loop_visited_length (domain : String)
    (fetch : String → Option HNode) (disc : List String) :
    ∀ (l : List String) (st : CrawlState),
      l.Nodup → (∀ u ∈ l, u ∉ st.visited) →
      (l.foldl (scrape_visit_step domain disc fetch) st).visited.length =
        st.visited.length + l.length := by
  intro l
  induction l with
  | nil =>
    intro st _ _
    simp
  | cons x xs ih =>
    intro st hnd hdisj
    rw [List.foldl_cons]
    have hxnot : x ∉ st.visited := hdisj x (List.mem_cons_self x xs)
    have hcne : ¬(st.visited.contains x = true) :=
      fun h => hxnot (by simpa using h)
    have hv : (scrape_visit_step domain disc fetch st x).visited =
        st.visited ++ [x] := by
      unfold scrape_visit_step
      rw [if_neg hcne]
      show (scrape_page_step domain disc fetch st x).visited ++ [x] =
        st.visited ++ [x]
      rw [scrape_page_step_visited]
    have hdisj2 : ∀ u ∈ xs,
        u ∉ (scrape_visit_step domain disc fetch st x).visited := by
      intro u hu hmem
      rw [hv] at hmem
      rcases List.mem_append.mp hmem with h | h
      · exact hdisj u (List.mem_cons_of_mem x hu) h
      · have he : u = x := by simpa using h
        exact (List.nodup_cons.mp hnd).1 (he ▸ hu)
    rw [ih _ (List.nodup_cons.mp hnd).2 hdisj2, hv]
    simp [List.length_append]
    omega

/-- C10: after the main loop every discovered URL is in visited_urls
whatever the fetch oracle returned — scrape_page absorbs its failures and
the loop adds the URL unconditionally — the visited set contains nothing
else, and for a duplicate-free discovered set (Python iterates a set) the
reported completed-page count, the length of visited_urls, equals the
discovered count, so failed pages are counted as completed. -/
theorem claim10_failed_pages_counted_visited (domain : String)
    (fetch : String → Option HNode) (discovered : List String) :
    (∀ u ∈ discovered, u ∈ (scrape_loop domain fetch discovered).visited) ∧
    (∀ u ∈ (scrape_loop domain fetch discovered).visited, u ∈ discovered) ∧
    (discovered.Nodup →
      (scrape_loop domain fetch discovered).visited.length =
        discovered.length) := by
  have hiff := scrape_loop_visited_iff domain fetch discovered discovered
    ⟨[], [], [], []⟩
  refine ⟨?_, ?_, ?_⟩
  · intro u hu
    exact (hiff u).mpr (Or.inr hu)
  · intro u hu
    rcases (hiff u).mp hu with h | h
    · simp at h
    · exact h
  · intro hnd
    have hlen := scrape_loop_visited_length domain fetch discovered discovered
      ⟨[], [], [], []⟩ hnd (by intro u _ hmem; simp at hmem)
    simpa using hlen

/-- C10 witness: a two-page discovered set whose fetches all fail is
still fully marked visited, with completed count 2. -/
theorem claim10_failed_pages_counted_visited_witness :
    "https://x/a" ∈ (scrape_loop "x" (fun _ => none)
      ["https://x", "https://x/a"]).visited ∧
    (scrape_loop "x" (fun _ => none)
      ["https://x", "https://x/a"]).visited.length = 2 :=
  ⟨(claim10_failed_pages_counted_visited "x" (fun _ => none)
      ["https://x", "https://x/a"]).1 "https://x/a" (by decide),
   (claim10_failed_pages_counted_visited "x" (fun _ => none)
      ["https://x", "https://x/a"]).2.2 (by decide)⟩

/-- C6 counterexample: parse_sitemap has no depth or cycle guard.  On the
self-referencing sitemap index, within a recursion-depth budget of 3 the
same sitemap URL is fetched 3 times — refuting "each sitemap is fetched
at most once" — and the recursion never reaches completion. -/
theorem claim6_counterexample_cycle_refetch :
    (parse_sitemap cycNet "x" 3 cycDoc).fetched.count "https://x/s.xml" = 3 ∧
    (parse_sitemap cycNet "x" 3 cycDoc).completed = false := by
  refine ⟨by decide, rfl⟩

/-- C6 amended: recursive sitemap discovery has no depth or cycle guard:
parse_sitemap recurses unconditionally into every successfully fetched
sitemap child, so on a sitemap index that references itself the sitemap
is fetched once per available recursion level — n times under a depth
budget of n, for every n — and the recursion never completes under any
finite budget (it does not terminate). -/
theorem claim6_no_cycle_guard (n : Nat) :
    (parse_sitemap cycNet "x" n cycDoc).fetched.count "https://x/s.xml" = n ∧
    (parse_sitemap cycNet "x" n cycDoc).completed = false := by
  induction n with
  | zero => exact ⟨rfl, rfl⟩
  | succ k ih =>
    have hstep : parse_sitemap cycNet "x" (k + 1) cycDoc =
        ⟨"https://x/s.xml" :: (parse_sitemap cycNet "x" k cycDoc).fetched,
          (parse_sitemap cycNet "x" k cycDoc).adds ++ [],
          true && (parse_sitemap cycNet "x" k cycDoc).completed⟩ := rfl
    rw [hstep]
    refine ⟨?_, ?_⟩
    · simp [List.count_cons, ih.1]
    · simp [ih.2]

/-- C3: evaluation of convert_to_relative_path at the three pages of the
end-to-end scenario.  The root page and the /about/ page agree with the
claim ("./style.css" and "../style.css"), but the /contact.html page
yields "../style.css", not the claimed "./style.css": the resolver counts
contact.html as a directory level even though save_html_file stores that
page as a file in the output root, so the emitted reference is broken. -/
theorem claim3_three_page_stylesheet_refs :
    convert_to_relative_path "https://x/style.css" "https://x/" = "./style.css" ∧
    convert_to_relative_path "https://x/style.css" "https://x/about/" = "../style.css" ∧
    convert_to_relative_path "https://x/style.css" "https://x/contact.html" = "../style.css" := by
  refine ⟨rfl, rfl, rfl⟩
